import Mathlib

/-!
Verification of the trace-context propagation core of this repository.

The embedding below translates, in order:
* `pkg/util/httptrace/httptrace.go` — the selector (`IsStatusOnly`,
  `WithObject`), the hex parser (`stringToSpanContext`), the hex printer
  (`spanContextString`), and the base64 payload decoder
  (`decodeSpanContext`, identical in the unnamed httptrace file), plus the
  caller `SpanContextFromAnnotations`.
* the passive span adapter `httpTraceSpan`.
* the OpenCensus traceutil embedder (`encodeSpanContextIntoObject`,
  `spanContextFromObject`, `RemoveSpanContextFromObject`).
* the OpenTelemetry configuration validator
  (`ValidateOpenTelemetryConfiguration`, `validateService`, `validateURL`).

Go strings are modelled as `List Char` where byte-level slicing happens
(all strings manipulated by the code are ASCII, for which Go's byte
indices and character indices agree) and as `String` where they are only
compared or stored. Go functions that can panic are modelled with an
`Option` result, `none` standing for a panic. Machine integers are
modelled as `Nat`/`Int` with explicit clamping where the code's behavior
depends on the width.
-/

/-- A span identity: 16 trace-id bytes, 8 span-id bytes, one flags byte
(the OpenCensus variant stores a `uint32` in the flags field; well-formed
values are below 256). Mirrors both `apitrace.SpanContext` and
`trace.SpanContext`. -/
structure SpanContext where
  traceID : List Nat
  spanID : List Nat
  flags : Nat
deriving Repr, DecidableEq

/-- `apitrace.EmptySpanContext()` / `trace.SpanContext{}`: all-zero identity. -/
def emptySpanContext : SpanContext :=
  { traceID := List.replicate 16 0, spanID := List.replicate 8 0, flags := 0 }

/-- Well-formedness of a span context: field widths of the Go struct and
byte-ranged flags. -/
def SpanContext.WF (sc : SpanContext) : Prop :=
  sc.traceID.length = 16 ∧ (∀ b ∈ sc.traceID, b < 256) ∧
  sc.spanID.length = 8 ∧ (∀ b ∈ sc.spanID, b < 256) ∧ sc.flags < 256

instance : DecidablePred SpanContext.WF := fun sc => by
  unfold SpanContext.WF; infer_instance

/-- A `metav1.ManagedFieldsEntry` as the selector consumes it. `fieldsV1`
is `none` when the Go pointer is nil; `some none` when the raw payload is
present but is not a JSON object (so `json.Unmarshal` fails); and
`some (some keys)` holds the top-level keys of the parsed ownership map. -/
structure ManagedFieldsEntry where
  fieldsV1 : Option (Option (List String))
  traceContext : List Char
deriving Repr, DecidableEq

/-- `IsStatusOnly` from `httptrace.go`. Returns `some b` for the boolean
the Go function returns, and `none` when the Go function panics (it calls
`panic(e)` when `json.Unmarshal` of `FieldsV1.Raw` fails). A nil
`FieldsV1` yields `true`; a key `f:metadata` or `f:spec` yields `false`;
otherwise the result is whether `f:status` occurs. -/
def IsStatusOnly (mf : ManagedFieldsEntry) : Option Bool :=
  match mf.fieldsV1 with
  | none => some true
  | some none => none
  | some (some keys) =>
    if "f:metadata" ∈ keys ∨ "f:spec" ∈ keys then some false
    else some (decide ("f:status" ∈ keys))

/-- `strings.Split(s, "-")`: split on every hyphen; the empty string
yields one empty component. -/
def splitOnHyphen : List Char → List (List Char)
  | [] => [[]]
  | c :: rest =>
    let r := splitOnHyphen rest
    if c = '-' then [] :: r
    else
      match r with
      | h :: t => (c :: h) :: t
      | [] => [[c]]

/-- `strconv.ParseInt(s, 10, 64)` with the error discarded, as the
selector uses it: `0` on a syntax error, the nearest representable int64
on overflow. -/
def parseInt64 (s : List Char) : Int :=
  match s with
  | [] => 0
  | c :: rest =>
    let neg : Bool := c = '-'
    let digits : List Char := if c = '-' ∨ c = '+' then rest else s
    if digits = [] ∨ ¬ digits.all Char.isDigit then 0
    else
      let n : Nat := digits.foldl (fun a d => a * 10 + (d.toNat - 48)) 0
      if neg then
        if n ≥ 2 ^ 63 then -(2 ^ 63) else -(n : Int)
      else
        if n ≥ 2 ^ 63 then 2 ^ 63 - 1 else (n : Int)

/-- The generation stamped in a record: parse of the last
hyphen-separated component of `TraceContext`
(`strconv.ParseInt(s[len(s)-1], 10, 64)` in `WithObject`). -/
def genOf (mf : ManagedFieldsEntry) : Int :=
  parseInt64 ((splitOnHyphen mf.traceContext).getLastD [])

/-- The fixed fallback trace-context string of `WithObject`. -/
def sentinelTraceContext : List Char :=
  "6617856f277e317fa7aab4c66e0041c9-2aa8325022d99d40-0".data

/-- The loop of `WithObject`: walk the managed fields in order, skip
status-only writers, and collect the `TraceContext` strings of records
ahead of (`acontext`) and at (`bcontext`) the observed generation.
`none` models a panic inside `IsStatusOnly`. -/
def selectLists (obv : Int) : List ManagedFieldsEntry →
    Option (List (List Char) × List (List Char))
  | [] => some ([], [])
  | mf :: rest =>
    match IsStatusOnly mf with
    | none => none
    | some true => selectLists obv rest
    | some false =>
      match selectLists obv rest with
      | none => none
      | some (ac, bc) =>
        if genOf mf > obv then some (mf.traceContext :: ac, bc)
        else if genOf mf = obv then some (ac, mf.traceContext :: bc)
        else some (ac, bc)

/-- The selection policy of `WithObject` at the string level: first
"ahead" record if any, else first "current" record, else the sentinel. -/
def selectTraceContextStr (mfs : List ManagedFieldsEntry) (obv : Int) :
    Option (List Char) :=
  match selectLists obv mfs with
  | none => none
  | some (a :: _, _) => some a
  | some ([], b :: _) => some b
  | some ([], []) => some sentinelTraceContext

/-- The sixteen lowercase hex digits, as `decodeHex` of the otel API
accepts them. -/
def hexAlpha : List Char := "0123456789abcdef".data

/-- Value of one hex digit, `none` outside `0-9a-f`. -/
def hexVal (c : Char) : Option Nat := hexAlpha.findIdx? (· = c)

/-- Parse pairs of hex digits into bytes; `none` on an odd length or an
invalid digit. -/
def hexToBytes : List Char → Option (List Nat)
  | [] => some []
  | [_] => none
  | h :: l :: rest =>
    match hexVal h, hexVal l, hexToBytes rest with
    | some a, some b, some bs => some ((a * 16 + b) :: bs)
    | _, _, _ => none

/-- `apitrace.IDFromHex` / `SpanIDFromHex` with the error discarded, as
`stringToSpanContext` uses them: the decoded `n`-byte identifier, or the
all-zero identifier when the length is not `2*n` or a digit is not
lowercase hex (the Go functions leave the output array zero in every
error path). -/
def idFromHex (s : List Char) (n : Nat) : List Nat :=
  if s.length = 2 * n then
    match hexToBytes s with
    | some bs => bs
    | none => List.replicate n 0
  else List.replicate n 0

/-- `stringToSpanContext` from `httptrace.go`: slices `sc[0:32]` and
`sc[33:49]` (panicking — `none` here — when the string is shorter than
49 bytes) and parses them as trace id and span id. The flags are never
parsed and stay zero. -/
def stringToSpanContext (s : List Char) : Option SpanContext :=
  if s.length < 49 then none
  else some { traceID := idFromHex (s.take 32) 16
            , spanID := idFromHex ((s.drop 33).take 16) 8
            , flags := 0 }

/-- `WithObject` restricted to its observable output: the span context
carried by the span it attaches. `none` models a panic. -/
def withObject (mfs : List ManagedFieldsEntry) (obv : Int) :
    Option SpanContext :=
  (selectTraceContextStr mfs obv).bind stringToSpanContext

/-- A record the selector may consider: `IsStatusOnly` returns `false`
(no panic, not status-only). -/
def eligible (mf : ManagedFieldsEntry) : Bool := IsStatusOnly mf == some false

lemma selectLists_eq (obv : Int) (mfs : List ManagedFieldsEntry)
    (h : ∀ mf ∈ mfs, IsStatusOnly mf ≠ none) :
    selectLists obv mfs = some
      ( ((mfs.filter eligible).filter
          (fun mf => decide (genOf mf > obv))).map ManagedFieldsEntry.traceContext
      , ((mfs.filter eligible).filter
          (fun mf => genOf mf == obv)).map ManagedFieldsEntry.traceContext ) := by
  induction mfs with
  | nil => rfl
  | cons mf rest ih =>
    have hmf := h mf (by simp)
    have hrest : ∀ m ∈ rest, IsStatusOnly m ≠ none := fun m hm => h m (by simp [hm])
    have ih2 := ih hrest
    rcases hs : IsStatusOnly mf with _ | b
    · exact absurd hs hmf
    · rw [selectLists, hs, ih2]
      cases b with
      | true => simp [List.filter_cons, eligible, hs]
      | false =>
        simp only [List.filter_cons, eligible, hs, beq_self_eq_true, if_pos]
        rcases lt_trichotomy obv (genOf mf) with hlt | heq | hgt
        · simp [hlt, ne_of_gt hlt]
        · simp [heq, lt_irrefl]
        · simp [not_lt.mpr (le_of_lt hgt), ne_of_lt hgt]

lemma selectTraceContextStr_eq (mfs : List ManagedFieldsEntry) (obv : Int)
    (h : ∀ mf ∈ mfs, IsStatusOnly mf ≠ none) :
    selectTraceContextStr mfs obv = some
      ( match (mfs.filter eligible).find? (fun mf => decide (genOf mf > obv)) with
        | some mf => mf.traceContext
        | none =>
          match (mfs.filter eligible).find? (fun mf => genOf mf == obv) with
          | some mf => mf.traceContext
          | none => sentinelTraceContext ) := by
  rw [selectTraceContextStr, selectLists_eq obv mfs h,
    ← List.filter_head?, ← List.filter_head?]
  cases hA : (mfs.filter eligible).filter (fun mf => decide (genOf mf > obv)) with
  | cons x xs => simp [hA]
  | nil =>
    cases hB : (mfs.filter eligible).filter (fun mf => genOf mf == obv) with
    | cons y ys => simp [hA, hB]
    | nil => simp [hA, hB]

lemma selectLists_skip (obv : Int) (pre post : List ManagedFieldsEntry)
    (e : ManagedFieldsEntry) (he : IsStatusOnly e = some true) :
    selectLists obv (pre ++ e :: post) = selectLists obv (pre ++ post) := by
  induction pre with
  | nil => simp [selectLists, he]
  | cons mf rest ih =>
    have ih2 : selectLists obv (rest.append (e :: post))
        = selectLists obv (rest.append post) := ih
    simp only [List.cons_append, selectLists, ih2]

lemma selectTraceContextStr_skip (obv : Int) (pre post : List ManagedFieldsEntry)
    (e : ManagedFieldsEntry) (he : IsStatusOnly e = some true) :
    selectTraceContextStr (pre ++ e :: post) obv = selectTraceContextStr (pre ++ post) obv := by
  unfold selectTraceContextStr
  rw [selectLists_skip obv pre post e he]

lemma withObject_skip (obv : Int) (pre post : List ManagedFieldsEntry)
    (e : ManagedFieldsEntry) (he : IsStatusOnly e = some true) :
    withObject (pre ++ e :: post) obv = withObject (pre ++ post) obv := by
  unfold withObject
  rw [selectTraceContextStr_skip obv pre post e he]

/-- C1. For every list of trace records and every observed generation
`obv`, the selector (`WithObject`), after discarding status-only records,
yields the context parsed from the first record with generation above
`obv` if any exists; otherwise from the first record with generation
equal to `obv` if any exists; otherwise from the fixed sentinel string.
Records with generation below `obv` are never selected. (The records are
assumed to carry parseable field-ownership payloads, since `IsStatusOnly`
panics otherwise.) -/
theorem WithObject_selection_policy (mfs : List ManagedFieldsEntry) (obv : Int)
    (h : ∀ mf ∈ mfs, IsStatusOnly mf ≠ none) :
    withObject mfs obv = stringToSpanContext
      ( match (mfs.filter eligible).find? (fun mf => decide (genOf mf > obv)) with
        | some mf => mf.traceContext
        | none =>
          match (mfs.filter eligible).find? (fun mf => genOf mf == obv) with
          | some mf => mf.traceContext
          | none => sentinelTraceContext ) := by
  rw [withObject, selectTraceContextStr_eq mfs obv h]
  rfl

/-- Witness for C1: the spec's example — records at generations 3
(current, observed 3) and 7 (ahead); the generation-7 record's context is
selected. -/
theorem WithObject_selection_policy_witness :
    withObject
      [⟨some (some ["f:spec"]), "aaaaaaaaaaaaaaaaaaaaaaaaaaaaaaaa-bbbbbbbbbbbbbbbb-3".data⟩,
       ⟨some (some ["f:spec"]), "cccccccccccccccccccccccccccccccc-dddddddddddddddd-7".data⟩] 3
      = stringToSpanContext "cccccccccccccccccccccccccccccccc-dddddddddddddddd-7".data := by
  rw [WithObject_selection_policy _ 3 (by decide)]
  rfl

/-- C2 (counterexample). The claim that selection is total for arbitrary
`TraceContext` strings is false: a record whose selected `TraceContext`
is shorter than 49 bytes makes `WithObject` panic (Go slices `sc[0:32]`
and `sc[33:49]` out of range in `stringToSpanContext`), modelled here as
`none`. -/
theorem WithObject_not_total :
    withObject [⟨some (some ["f:spec"]), "x-5".data⟩] 5 = none := by decide

/-- C2 (amended). Selection is total — it always yields a span context
and never an error — provided every record's field-ownership payload
parses (otherwise `IsStatusOnly` panics) and every record the selector
can pick (`IsStatusOnly` = `false`) carries a `TraceContext` of at least
49 bytes (otherwise `stringToSpanContext` panics). The sentinel fallback
itself is long enough. -/
theorem WithObject_total_on_wellformed (mfs : List ManagedFieldsEntry) (obv : Int)
    (h1 : ∀ mf ∈ mfs, IsStatusOnly mf ≠ none)
    (h2 : ∀ mf ∈ mfs, IsStatusOnly mf = some false → 49 ≤ mf.traceContext.length) :
    (withObject mfs obv).isSome = true := by
  have hlen : ∀ s : List Char, 49 ≤ s.length → (stringToSpanContext s).isSome = true := by
    intro s hs
    rw [stringToSpanContext, if_neg (by omega)]
    rfl
  have hmem : ∀ mf ∈ mfs.filter eligible, 49 ≤ mf.traceContext.length := by
    intro mf hmf
    have h3 := List.mem_filter.mp hmf
    exact h2 mf h3.1 (by simpa [eligible] using h3.2)
  rw [withObject, selectTraceContextStr_eq mfs obv h1, Option.some_bind]
  cases hA : (mfs.filter eligible).find? (fun mf => decide (genOf mf > obv)) with
  | some mf => exact hlen _ (hmem mf (List.mem_of_find?_eq_some hA))
  | none =>
    cases hB : (mfs.filter eligible).find? (fun mf => genOf mf == obv) with
    | some mf => exact hlen _ (hmem mf (List.mem_of_find?_eq_some hB))
    | none => exact hlen _ (by decide)

/-- Witness for C2 (amended): a well-formed current record is selected
and a context is produced. -/
theorem WithObject_total_on_wellformed_witness :
    (withObject
      [⟨some (some ["f:spec"]), "aaaaaaaaaaaaaaaaaaaaaaaaaaaaaaaa-bbbbbbbbbbbbbbbb-5".data⟩] 5).isSome
      = true :=
  WithObject_total_on_wellformed _ 5 (by decide) (by decide)

/-- C3. A record whose ownership payload has an `f:status` key and
neither `f:metadata` nor `f:spec` is never eligible: removing it from the
record list never changes the selection; and on the spec's example — a
single status-only record at generation 5 with observed generation 5 —
the selector returns the sentinel context, not that record's context. -/
theorem status_only_never_selected (keys : List String) (tc : List Char)
    (pre post : List ManagedFieldsEntry) (obv : Int)
    (hst : "f:status" ∈ keys) (hmd : "f:metadata" ∉ keys) (hsp : "f:spec" ∉ keys) :
    withObject (pre ++ (⟨some (some keys), tc⟩ : ManagedFieldsEntry) :: post) obv
      = withObject (pre ++ post) obv
    ∧ withObject
        [⟨some (some ["f:status"]), "aaaaaaaaaaaaaaaaaaaaaaaaaaaaaaaa-bbbbbbbbbbbbbbbb-5".data⟩] 5
        = stringToSpanContext sentinelTraceContext
    ∧ stringToSpanContext sentinelTraceContext
        ≠ stringToSpanContext "aaaaaaaaaaaaaaaaaaaaaaaaaaaaaaaa-bbbbbbbbbbbbbbbb-5".data := by
  refine ⟨?_, by decide, by decide⟩
  exact withObject_skip obv pre post _ (by simp [IsStatusOnly, hst, hmd, hsp])

/-- Witness for C3 at a concrete status-only record. -/
theorem status_only_never_selected_witness :
    withObject
        ([⟨some (some ["f:spec"]), "cccccccccccccccccccccccccccccccc-dddddddddddddddd-7".data⟩]
          ++ (⟨some (some ["f:status", "f:other"]), "eeee-9".data⟩ : ManagedFieldsEntry) :: []) 7
      = withObject
        ([⟨some (some ["f:spec"]), "cccccccccccccccccccccccccccccccc-dddddddddddddddd-7".data⟩]
          ++ []) 7 :=
  (status_only_never_selected ["f:status", "f:other"] "eeee-9".data _ [] 7
    (by decide) (by decide) (by decide)).1

/-- C10. A managed-fields entry whose `FieldsV1` payload is nil is
classified status-only by `IsStatusOnly` and is therefore never eligible
for selection by `WithObject`: removing it never changes the result. -/
theorem nil_fieldsV1_is_status_only (tc : List Char)
    (pre post : List ManagedFieldsEntry) (obv : Int) :
    IsStatusOnly ⟨none, tc⟩ = some true
    ∧ withObject (pre ++ (⟨none, tc⟩ : ManagedFieldsEntry) :: post) obv
        = withObject (pre ++ post) obv :=
  ⟨rfl, withObject_skip obv pre post _ rfl⟩

/-- The standard base64 alphabet of `encoding/base64`. -/
def b64Alpha : List Char :=
  "ABCDEFGHIJKLMNOPQRSTUVWXYZabcdefghijklmnopqrstuvwxyz0123456789+/".data

/-- The alphabet character for a 6-bit value. -/
def b64Char (n : Nat) : Char := b64Alpha.getD n '='

/-- The 6-bit value of an alphabet character, `none` for characters
outside the alphabet (Go's `decodeMap` value `0xff`). -/
def b64Index (c : Char) : Option Nat := b64Alpha.findIdx? (· = c)

/-- `base64.StdEncoding.EncodeToString`: bytes to text in 3-byte groups,
padding the final group with `=`. -/
def b64Encode : List Nat → List Char
  | [] => []
  | [b] => [b64Char (b / 4), b64Char (b % 4 * 16), '=', '=']
  | [b, c] => [b64Char (b / 4), b64Char (b % 4 * 16 + c / 16), b64Char (c % 16 * 4), '=']
  | b :: c :: d :: rest =>
    b64Char (b / 4) :: b64Char (b % 4 * 16 + c / 16) ::
    b64Char (c % 16 * 4 + d / 64) :: b64Char (d % 64) :: b64Encode rest

/-- The quantum loop of `base64.StdEncoding.Decode` (newlines already
removed): four characters per group; the final group may end in `=` or
`==`; a group of fewer than four characters, a bad character, misplaced
padding, or data after padding is a `CorruptInputError` (`none`). The
standard (non-strict) decoder does not check the unused trailing bits. -/
def b64Quanta : List Char → Option (List Nat)
  | [] => some []
  | a :: b :: c :: d :: rest =>
    match b64Index a, b64Index b with
    | some va, some vb =>
      if c = '=' then
        if d = '=' ∧ rest = [] then some [va * 4 + vb / 16] else none
      else
        match b64Index c with
        | none => none
        | some vc =>
          if d = '=' then
            if rest = [] then some [va * 4 + vb / 16, vb % 16 * 16 + vc / 4] else none
          else
            match b64Index d with
            | none => none
            | some vd =>
              match b64Quanta rest with
              | none => none
              | some bs =>
                some ((va * 4 + vb / 16) :: (vb % 16 * 16 + vc / 4) :: (vc % 4 * 64 + vd) :: bs)
    | _, _ => none
  | _ => none

def notNL (c : Char) : Bool := ¬ (c = '\n' ∨ c = '\r')

/-- `base64.StdEncoding.Decode` on a full input: the decoder skips `\n`
and `\r` anywhere, then consumes 4-character quanta. `none` models a
non-nil returned error. -/
def b64Decode (s : List Char) : Option (List Nat) :=
  b64Quanta (s.filter notNL)

lemma b64Index_b64Char : ∀ v : Nat, v < 64 → b64Index (b64Char v) = some v := by decide

lemma b64Char_plain : ∀ v : Nat, v < 64 →
    (b64Char v = '\n' ∨ b64Char v = '\r' ∨ b64Char v = '=') = False := by decide

lemma b64Char_ne_nl : ∀ v : Nat, v < 64 → ¬ b64Char v = '\n' ∧ ¬ b64Char v = '\r' := by decide

lemma filter_b64Encode (bs : List Nat) (h : ∀ b ∈ bs, b < 256) :
    (b64Encode bs).filter notNL = b64Encode bs := by
  induction bs using b64Encode.induct with
  | case1 => rfl
  | case2 b =>
    have hb := h b (by simp)
    simp [b64Encode, List.filter_cons, b64Char_ne_nl (b / 4) (by omega),
      b64Char_ne_nl (b % 4 * 16) (by omega), notNL]
  | case3 b c =>
    have hb := h b (by simp)
    have hc := h c (by simp)
    simp [b64Encode, List.filter_cons, b64Char_ne_nl (b / 4) (by omega),
      b64Char_ne_nl (b % 4 * 16 + c / 16) (by omega),
      b64Char_ne_nl (c % 16 * 4) (by omega), notNL]
  | case4 b c d rest ih =>
    have hb := h b (by simp)
    have hc := h c (by simp)
    have hd := h d (by simp)
    have ih2 := ih (fun x hx => h x (by simp [hx]))
    simp [b64Encode, List.filter_cons, b64Char_ne_nl (b / 4) (by omega),
      b64Char_ne_nl (b % 4 * 16 + c / 16) (by omega),
      b64Char_ne_nl (c % 16 * 4 + d / 64) (by omega),
      b64Char_ne_nl (d % 64) (by omega), ih2, notNL]

lemma b64Char_ne_pad : ∀ v : Nat, v < 64 → ¬ b64Char v = '=' := by decide

lemma b64Quanta_b64Encode (bs : List Nat) (h : ∀ b ∈ bs, b < 256) :
    b64Quanta (b64Encode bs) = some bs := by
  induction bs using b64Encode.induct with
  | case1 => rfl
  | case2 b =>
    have hb := h b (by simp)
    simp only [b64Encode, b64Quanta,
      b64Index_b64Char (b / 4) (by omega),
      b64Index_b64Char (b % 4 * 16) (by omega)]
    simp
    omega
  | case3 b c =>
    have hb := h b (by simp)
    have hc := h c (by simp)
    simp only [b64Encode, b64Quanta,
      b64Index_b64Char (b / 4) (by omega),
      b64Index_b64Char (b % 4 * 16 + c / 16) (by omega),
      b64Index_b64Char (c % 16 * 4) (by omega),
      b64Char_ne_pad (c % 16 * 4) (by omega)]
    simp
    omega
  | case4 b c d rest ih =>
    have hb := h b (by simp)
    have hc := h c (by simp)
    have hd := h d (by simp)
    have ih2 := ih (fun x hx => h x (by simp [hx]))
    simp only [b64Encode, b64Quanta,
      b64Index_b64Char (b / 4) (by omega),
      b64Index_b64Char (b % 4 * 16 + c / 16) (by omega),
      b64Index_b64Char (c % 16 * 4 + d / 64) (by omega),
      b64Index_b64Char (d % 64) (by omega),
      b64Char_ne_pad (c % 16 * 4 + d / 64) (by omega),
      b64Char_ne_pad (d % 64) (by omega), ih2]
    simp
    omega

lemma b64Decode_b64Encode (bs : List Nat) (h : ∀ b ∈ bs, b < 256) :
    b64Decode (b64Encode bs) = some bs := by
  rw [b64Decode, filter_b64Encode bs h, b64Quanta_b64Encode bs h]

/-- `decodeSpanContext` from `httptrace.go` (the same function appears
verbatim in both httptrace files): base64-decode, then `binary.Read` the
25-byte little-endian struct — 16 trace-id bytes, 8 span-id bytes, one
flags byte, read sequentially from the front of the buffer. Any base64
error, or a payload shorter than the struct, yields
(`EmptySpanContext()`, non-nil error) — the error flag is the second
component. -/
def decodeSpanContext (s : List Char) : SpanContext × Bool :=
  match b64Decode s with
  | none => (emptySpanContext, true)
  | some bs =>
    if bs.length < 25 then (emptySpanContext, true)
    else ({ traceID := bs.take 16, spanID := (bs.drop 16).take 8
          , flags := (bs.drop 24).headD 0 }, false)

/-- Modelled from the spec: the encoder paired with `decodeSpanContext`
is not among the source files under src (only the decoder and its
callers are). Per the spec, `encode(ctx) -> text` "serializes the
fixed-width structure (traceID‖spanID‖flags) to bytes, then to base64
text". -/
def encodeSpanContext (sc : SpanContext) : List Char :=
  b64Encode (sc.traceID ++ sc.spanID ++ [sc.flags])

/-- Go's `%02d` of a byte-ranged value: decimal digits, left-padded with
`0` to width two (values below 256 need at most three digits). -/
def fmt02d (n : Nat) : List Char :=
  if n < 10 then ['0', Nat.digitChar n]
  else if n < 100 then [Nat.digitChar (n / 10), Nat.digitChar (n % 10)]
  else [Nat.digitChar (n / 100), Nat.digitChar (n / 10 % 10), Nat.digitChar (n % 10)]

/-- One lowercase hex digit. -/
def hexDigit (n : Nat) : Char := hexAlpha.getD n '0'

/-- Lowercase hex rendering of a byte list (`TraceID.String()` /
`SpanID.String()` use `hex.EncodeToString`). -/
def bytesToHex : List Nat → List Char
  | [] => []
  | b :: rest => hexDigit (b / 16) :: hexDigit (b % 16) :: bytesToHex rest

/-- `spanContextString` from `httptrace.go`:
`fmt.Sprintf("%s-%s-%02d", TraceID, SpanID, TraceFlags)`. -/
def spanContextString (sc : SpanContext) : List Char :=
  bytesToHex sc.traceID ++ '-' :: (bytesToHex sc.spanID ++ '-' :: fmt02d sc.flags)

lemma hexVal_hexDigit : ∀ v : Nat, v < 16 → hexVal (hexDigit v) = some v := by decide

lemma hexToBytes_bytesToHex (bs : List Nat) (h : ∀ b ∈ bs, b < 256) :
    hexToBytes (bytesToHex bs) = some bs := by
  induction bs with
  | nil => rfl
  | cons b rest ih =>
    have hb := h b (by simp)
    rw [bytesToHex, hexToBytes, hexVal_hexDigit (b / 16) (by omega),
      hexVal_hexDigit (b % 16) (by omega), ih (fun x hx => h x (by simp [hx]))]
    simp only []
    have : b / 16 * 16 + b % 16 = b := by omega
    rw [this]

lemma length_bytesToHex (bs : List Nat) : (bytesToHex bs).length = 2 * bs.length := by
  induction bs with
  | nil => rfl
  | cons b rest ih => simp [bytesToHex, ih]; omega

lemma idFromHex_bytesToHex (bs : List Nat) (n : Nat) (h : ∀ b ∈ bs, b < 256)
    (hlen : bs.length = n) :
    idFromHex (bytesToHex bs) n = bs := by
  rw [idFromHex, if_pos (by rw [length_bytesToHex, hlen]),
    hexToBytes_bytesToHex bs h]

lemma length_fmt02d (n : Nat) : 2 ≤ (fmt02d n).length := by
  rw [fmt02d]
  split
  · simp
  · split <;> simp

/-- C4 (counterexample). Parsing the hex-hyphenated textual form does
not recover the flags: `stringToSpanContext` never parses the third
component, so a context with flags 1 comes back with flags 0. -/
theorem hex_roundtrip_drops_flags :
    stringToSpanContext
        (spanContextString ⟨List.replicate 16 0, List.replicate 8 0, 1⟩)
      ≠ some ⟨List.replicate 16 0, List.replicate 8 0, 1⟩ := by decide

/-- C4 (amended). For every well-formed span context `x`:
`decode(encode(x)) = x` holds exactly (the annotation-slot codec, with
the encoder modelled from the spec), and parsing the hex-hyphenated
textual form recovers the trace id and span id exactly but resets the
flags to zero: `parseHex(formatHex(x)) = x` with `x.flags := 0`. -/
theorem codec_roundtrips (sc : SpanContext) (h : sc.WF) :
    decodeSpanContext (encodeSpanContext sc) = (sc, false)
    ∧ stringToSpanContext (spanContextString sc) = some { sc with flags := 0 } := by
  obtain ⟨h16, hb16, h8, hb8, hfl⟩ := h
  constructor
  · have hbytes : ∀ b ∈ sc.traceID ++ sc.spanID ++ [sc.flags], b < 256 := by
      intro b hb
      simp only [List.mem_append, List.mem_singleton] at hb
      rcases hb with (hb | hb) | rfl
      · exact hb16 b hb
      · exact hb8 b hb
      · exact hfl
    rw [decodeSpanContext, encodeSpanContext, b64Decode_b64Encode _ hbytes]
    have hlen : (sc.traceID ++ sc.spanID ++ [sc.flags]).length = 25 := by
      simp [h16, h8]
    simp only []
    rw [if_neg (by omega)]
    have ht : (sc.traceID ++ sc.spanID ++ [sc.flags]).take 16 = sc.traceID := by
      rw [List.append_assoc, List.take_left' h16]
    have hd16 : (sc.traceID ++ sc.spanID ++ [sc.flags]).drop 16
        = sc.spanID ++ [sc.flags] := by
      rw [List.append_assoc, List.drop_left' h16]
    have hd24 : (sc.traceID ++ sc.spanID ++ [sc.flags]).drop 24 = [sc.flags] := by
      rw [List.drop_left' (by simp [h16, h8])]
    rw [ht, hd16, hd24, List.take_left' h8]
    rfl
  · have hlen49 : ¬ (spanContextString sc).length < 49 := by
      have := length_fmt02d sc.flags
      simp [spanContextString, length_bytesToHex, h16, h8]
      omega
    rw [stringToSpanContext, if_neg hlen49]
    have ht32 : (spanContextString sc).take 32 = bytesToHex sc.traceID := by
      rw [spanContextString, List.take_left' (by rw [length_bytesToHex, h16])]
    have hsplit : spanContextString sc
        = (bytesToHex sc.traceID ++ ['-']) ++ (bytesToHex sc.spanID ++ '-' :: fmt02d sc.flags) := by
      simp [spanContextString]
    have hd33 : (spanContextString sc).drop 33
        = bytesToHex sc.spanID ++ '-' :: fmt02d sc.flags := by
      rw [hsplit, List.drop_left' (by simp [length_bytesToHex, h16])]
    rw [ht32, hd33, List.take_left' (by rw [length_bytesToHex, h8]),
      idFromHex_bytesToHex _ _ hb16 h16, idFromHex_bytesToHex _ _ hb8 h8]

/-- Witness for C4 (amended): both round trips at a concrete context. -/
theorem codec_roundtrips_witness :
    decodeSpanContext (encodeSpanContext ⟨List.replicate 16 5, List.replicate 8 7, 1⟩)
      = (⟨List.replicate 16 5, List.replicate 8 7, 1⟩, false)
    ∧ stringToSpanContext (spanContextString ⟨List.replicate 16 5, List.replicate 8 7, 1⟩)
      = some ⟨List.replicate 16 5, List.replicate 8 7, 0⟩ :=
  codec_roundtrips ⟨List.replicate 16 5, List.replicate 8 7, 1⟩ (by decide)

/-- The annotation-slot key of `httptrace.go`
(`spanContextAnnotationKey`, line 37). -/
def spanContextKeyHttptrace : String := "trace.kubernetes.io/context"

/-- The annotation-slot key of the unnamed httptrace variant
(`spanContextAnnotationKey`, with a comment saying to avoid the `/`
character). -/
def spanContextKeyDotted : String := "trace.kubernetes.io.span.context"

/-- `TraceAnnotationKey` of the traceutil embedder. -/
def traceAnnKey : String := "trace.kubernetes.io/context"

/-- Lookup in a Go `map[string]string` modelled as an association list
(first binding wins; the operations below keep keys unique). -/
def lookupAnn (anns : List (String × String)) (k : String) : Option String :=
  (anns.find? (fun p => p.1 == k)).map (fun p => p.2)

/-- `SpanContextFromAnnotations` from the unnamed httptrace file
(`spanContextFromAnnotations` in `httptrace.go` is identical except for
the key constant), restricted to its observable output: the span context
it attaches to the returned context, or `none` when it returns the
caller's context unchanged. A missing key reads as `""` in Go. -/
def spanContextFromAnn (anns : List (String × String)) : Option SpanContext :=
  let r := decodeSpanContext ((lookupAnn anns spanContextKeyDotted).getD "").data
  if r.2 then none else some r.1

/-- C5. `decodeSpanContext` fails softly: on any input that is not valid
base64, or whose decoded payload is shorter than the fixed 25-byte
structure, it returns the empty span context together with an error —
it never panics (it is a total function here) — and the caller
`SpanContextFromAnnotations` maps any decode failure to "no context
attached", exactly as it treats an absent annotation; in particular
`decode("not-base64!!")` is an error. -/
theorem decode_fails_softly (s : List Char)
    (h : b64Decode s = none ∨ ∃ bs, b64Decode s = some bs ∧ bs.length < 25) :
    decodeSpanContext s = (emptySpanContext, true)
    ∧ (∀ anns : List (String × String),
        (decodeSpanContext ((lookupAnn anns spanContextKeyDotted).getD "").data).2 = true →
          spanContextFromAnn anns = none)
    ∧ decodeSpanContext "not-base64!!".data = (emptySpanContext, true) := by
  refine ⟨?_, ?_, by decide⟩
  · rcases h with h | ⟨bs, hbs, hlen⟩
    · rw [decodeSpanContext, h]
    · rw [decodeSpanContext, hbs]
      simp only []
      rw [if_pos hlen]
  · intro anns herr
    simp only [spanContextFromAnn, herr]
    rfl

/-- Witness for C5 at the spec's concrete example. -/
theorem decode_fails_softly_witness :
    b64Decode "not-base64!!".data = none
    ∧ decodeSpanContext "not-base64!!".data = (emptySpanContext, true) :=
  ⟨by decide, (decode_fails_softly "not-base64!!".data (Or.inl (by decide))).1⟩

/-- Go map assignment `m[k] = v`: keys stay unique in this model. -/
def insertAnn (anns : List (String × String)) (k v : String) :
    List (String × String) :=
  anns.filter (fun p => ¬ p.1 = k) ++ [(k, v)]

/-- Go `delete(m, k)`. -/
def eraseAnn (anns : List (String × String)) (k : String) :
    List (String × String) :=
  anns.filter (fun p => ¬ p.1 = k)

/-- OpenCensus `propagation.Binary`: nil for the zero span context,
otherwise the 29-byte wire format — version byte 0, field id 0, 16
trace-id bytes, field id 1, 8 span-id bytes, field id 2, the low byte of
the 32-bit trace options. -/
def ocBinary (sc : SpanContext) : List Nat :=
  if sc = emptySpanContext then []
  else 0 :: 0 :: (sc.traceID ++ 1 :: (sc.spanID ++ [2, sc.flags % 256]))

/-- One optional field group of OpenCensus `propagation.FromBinary`:
if at least `w + 1` bytes remain and the next byte is the expected field
id, consume the id and `w` payload bytes; otherwise leave the buffer
alone and keep the zero default. -/
def ocReadField (fieldID w : Nat) (dflt r : List Nat) : List Nat × List Nat :=
  if w + 1 ≤ r.length ∧ r.headD (fieldID + 1) = fieldID then
    ((r.drop 1).take w, r.drop (w + 1))
  else (dflt, r)

/-- OpenCensus `propagation.FromBinary`: `none` models `ok = false`
(empty buffer or a version byte other than 0); the trace-id, span-id and
options fields are read in order, each only if its length and field id
match; missing fields stay zero. -/
def ocFromBinary (b : List Nat) : Option SpanContext :=
  match b with
  | [] => none
  | v :: r =>
    if v ≠ 0 then none
    else
      match ocReadField 0 16 (List.replicate 16 0) r with
      | (tid, r1) =>
        match ocReadField 1 8 (List.replicate 8 0) r1 with
        | (sid, r2) =>
          some ⟨tid, sid, if 2 ≤ r2.length ∧ r2.headD 0 = 2 then r2.getD 1 0 else 0⟩

/-- `encodeSpanContextIntoObject` from traceutil: store the
base64-encoded binary form under `TraceAnnotationKey` in the object's
annotations. -/
def encodeSpanContextIntoObject (anns : List (String × String))
    (sc : SpanContext) : List (String × String) :=
  insertAnn anns traceAnnKey (String.mk (b64Encode (ocBinary sc)))

/-- `spanContextFromObject` from traceutil: read the annotation
(`none` when absent), base64-decode it (`none` on error), and
`FromBinary` the payload. -/
def spanContextFromObject (anns : List (String × String)) :
    Option SpanContext :=
  match lookupAnn anns traceAnnKey with
  | none => none
  | some s =>
    match b64Decode s.data with
    | none => none
    | some bs => ocFromBinary bs

/-- `RemoveSpanContextFromObject` from traceutil: delete the annotation
key. -/
def removeSpanContextFromObject (anns : List (String × String)) :
    List (String × String) :=
  eraseAnn anns traceAnnKey

lemma lookupAnn_insertAnn (anns : List (String × String)) (k v : String) :
    lookupAnn (insertAnn anns k v) k = some v := by
  rw [lookupAnn, insertAnn, List.find?_append]
  have hnone : (anns.filter (fun p => ¬ p.1 = k)).find? (fun p => p.1 == k) = none := by
    rw [List.find?_eq_none]
    intro p hp
    have := (List.mem_filter.mp hp).2
    simpa using this
  rw [hnone]
  simp

lemma lookupAnn_eraseAnn (anns : List (String × String)) (k : String) :
    lookupAnn (eraseAnn anns k) k = none := by
  rw [lookupAnn, eraseAnn]
  have hnone : (anns.filter (fun p => ¬ p.1 = k)).find? (fun p => p.1 == k) = none := by
    rw [List.find?_eq_none]
    intro p hp
    have := (List.mem_filter.mp hp).2
    simpa using this
  rw [hnone]
  rfl


lemma eraseAnn_absent (anns : List (String × String)) (k : String)
    (h : lookupAnn anns k = none) : eraseAnn anns k = anns := by
  rw [eraseAnn, List.filter_eq_self]
  intro p hp
  have hfind : anns.find? (fun p => p.1 == k) = none := by
    rcases hf : anns.find? (fun p => p.1 == k) with _ | q
    · exact hf
    · rw [lookupAnn, hf] at h
      simp at h
  rw [List.find?_eq_none] at hfind
  simpa using hfind p hp

lemma ocBinary_bytes (sc : SpanContext) (h : sc.WF) :
    ∀ b ∈ ocBinary sc, b < 256 := by
  obtain ⟨h16, hb16, h8, hb8, hfl⟩ := h
  intro b hb
  rw [ocBinary] at hb
  split at hb
  · simp at hb
  · simp only [List.mem_cons, List.mem_append, List.mem_singleton,
      List.not_mem_nil, or_false] at hb
    rcases hb with rfl | rfl | hb | rfl | hb | rfl | rfl
    · omega
    · omega
    · exact hb16 b hb
    · omega
    · exact hb8 b hb
    · omega
    · omega

lemma ocReadField_cons (fieldID w : Nat) (payload rest dflt : List Nat)
    (hw : payload.length = w) :
    ocReadField fieldID w dflt (fieldID :: (payload ++ rest)) = (payload, rest) := by
  rw [ocReadField, if_pos ⟨by simp [hw], rfl⟩]
  have h1 : (fieldID :: (payload ++ rest)).drop 1 = payload ++ rest := rfl
  have h2 : (fieldID :: (payload ++ rest)) = (fieldID :: payload) ++ rest := by simp
  rw [h1, List.take_left' hw, h2, List.drop_left' (by simp [hw])]

lemma ocFromBinary_ocBinary (sc : SpanContext) (h : sc.WF)
    (hnz : sc ≠ emptySpanContext) : ocFromBinary (ocBinary sc) = some sc := by
  obtain ⟨h16, hb16, h8, hb8, hfl⟩ := h
  rw [ocBinary, if_neg hnz, ocFromBinary]
  simp only [if_neg (by omega : ¬ (0 : Nat) ≠ 0)]
  rw [ocReadField_cons 0 16 sc.traceID (1 :: (sc.spanID ++ [2, sc.flags % 256]))
    (List.replicate 16 0) h16]
  rw [ocReadField_cons 1 8 sc.spanID [2, sc.flags % 256] (List.replicate 8 0) h8]
  simp only [if_pos (by simp : 2 ≤ ([2, sc.flags % 256] : List Nat).length
    ∧ ([2, sc.flags % 256] : List Nat).headD 0 = 2)]
  have hgd : ([2, sc.flags % 256] : List Nat).getD 1 0 = sc.flags := by
    simp [Nat.mod_eq_of_lt hfl]
  rw [hgd]

/-- C6 (counterexample). Attach-then-read does not return the stored
context for every span context: `propagation.Binary` encodes the zero
context as nil, so after attaching it the read reports absent; and the
options field is truncated to its low byte, so a context with trace
options 256 does not read back equal. -/
theorem attach_zero_reads_absent :
    spanContextFromObject (encodeSpanContextIntoObject [] emptySpanContext) = none
    ∧ spanContextFromObject
        (encodeSpanContextIntoObject [] ⟨List.replicate 16 0, List.replicate 8 0, 256⟩)
      ≠ some ⟨List.replicate 16 0, List.replicate 8 0, 256⟩ := by decide

/-- C6 (amended). For every annotations map and every well-formed,
non-zero span context: attach then read returns exactly the attached
context; read after detach reports absent; and detach on a map whose
key is already absent leaves the map unchanged (idempotence). -/
theorem attach_read_detach (anns : List (String × String)) (sc : SpanContext)
    (hWF : sc.WF) (hnz : sc ≠ emptySpanContext) :
    spanContextFromObject (encodeSpanContextIntoObject anns sc) = some sc
    ∧ spanContextFromObject (removeSpanContextFromObject anns) = none
    ∧ (lookupAnn anns traceAnnKey = none → removeSpanContextFromObject anns = anns) := by
  refine ⟨?_, ?_, fun h => eraseAnn_absent anns traceAnnKey h⟩
  · rw [spanContextFromObject, encodeSpanContextIntoObject, lookupAnn_insertAnn]
    have hdata : (String.mk (b64Encode (ocBinary sc))).data = b64Encode (ocBinary sc) := rfl
    simp only [hdata, b64Decode_b64Encode _ (ocBinary_bytes sc hWF),
      ocFromBinary_ocBinary sc hWF hnz]
  · rw [spanContextFromObject, removeSpanContextFromObject, lookupAnn_eraseAnn]

/-- Witness for C6 (amended) at a concrete context and map. -/
theorem attach_read_detach_witness :
    spanContextFromObject
        (encodeSpanContextIntoObject [("a", "b")] ⟨List.replicate 16 5, List.replicate 8 7, 1⟩)
      = some ⟨List.replicate 16 5, List.replicate 8 7, 1⟩
    ∧ spanContextFromObject (removeSpanContextFromObject [("a", "b")]) = none
    ∧ (lookupAnn [("a", "b")] traceAnnKey = none
        → removeSpanContextFromObject [("a", "b")] = [("a", "b")]) :=
  attach_read_detach [("a", "b")] ⟨List.replicate 16 5, List.replicate 8 7, 1⟩
    (by decide) (by decide)

/-- The passive span adapter `httpTraceSpan`: a value holding only the
recovered span context. Every method has a value receiver and an empty
body in the source, so each operation below returns the span unchanged;
event names, attributes, status codes and errors are modelled with plain
types since the adapter never inspects them. -/
structure HttpTraceSpan where
  spanContext : SpanContext
deriving Repr, DecidableEq

/-- `End(options ...)`. -/
def spanEnd (s : HttpTraceSpan) : HttpTraceSpan := s

/-- `AddEvent(ctx, name, attrs ...)`. -/
def addEvent (s : HttpTraceSpan) (_name : String)
    (_attrs : List (String × String)) : HttpTraceSpan := s

/-- `AddEventWithTimestamp(ctx, timestamp, name, attrs ...)`. -/
def addEventWithTimestamp (s : HttpTraceSpan) (_timestamp : Int)
    (_name : String) (_attrs : List (String × String)) : HttpTraceSpan := s

/-- `IsRecording()`. -/
def isRecording (_s : HttpTraceSpan) : Bool := false

/-- `RecordError(ctx, err, opts ...)`. -/
def recordError (s : HttpTraceSpan) (_err : String) : HttpTraceSpan := s

/-- `SetStatus(code, msg)`. -/
def setStatus (s : HttpTraceSpan) (_code : Nat) (_msg : String) : HttpTraceSpan := s

/-- `SetName(name)`. -/
def setName (s : HttpTraceSpan) (_name : String) : HttpTraceSpan := s

/-- `SetAttributes(kv ...)`. -/
def setAttributes (s : HttpTraceSpan) (_kv : List (String × String)) :
    HttpTraceSpan := s

/-- `SetAttribute(k, v)`. -/
def setAttribute (s : HttpTraceSpan) (_k _v : String) : HttpTraceSpan := s

/-- C7. Every mutating or recording operation of the passive span
adapter is a no-op leaving the span's observable state unchanged,
`IsRecording` always reports false, and the `SpanContext` accessor
returns exactly the wrapped context. -/
theorem passive_span_is_noop (s : HttpTraceSpan) (name msg k v err : String)
    (ts : Int) (code : Nat) (attrs : List (String × String)) (sc : SpanContext) :
    spanEnd s = s
    ∧ addEvent s name attrs = s
    ∧ addEventWithTimestamp s ts name attrs = s
    ∧ setStatus s code msg = s
    ∧ setName s name = s
    ∧ setAttributes s attrs = s
    ∧ setAttribute s k v = s
    ∧ recordError s err = s
    ∧ isRecording s = false
    ∧ HttpTraceSpan.spanContext ⟨sc⟩ = sc :=
  ⟨rfl, rfl, rfl, rfl, rfl, rfl, rfl, rfl, rfl, rfl⟩

/-- C8 (counterexample). There is no single annotation-key constant used
by every component: the httptrace selector file and the annotation
variant define different key strings, and the selector's key contains
the `/` character that the claim says is avoided. -/
theorem ann_keys_disagree :
    spanContextKeyHttptrace ≠ spanContextKeyDotted
    ∧ '/' ∈ spanContextKeyHttptrace.data := by decide

/-- C8 (amended). Each component pins its slot with a fixed string
constant, but there are two distinct values: the httptrace selector file
and the traceutil embedder share `trace.kubernetes.io/context` (which
contains `/`), while the annotation-variant file uses the distinct key
`trace.kubernetes.io.span.context`, which does avoid `/` (as its source
comment demands). -/
theorem ann_keys_inventory :
    spanContextKeyHttptrace = traceAnnKey
    ∧ spanContextKeyDotted ≠ traceAnnKey
    ∧ '/' ∈ traceAnnKey.data
    ∧ '/' ∉ spanContextKeyDotted.data := by decide

/-- `apiserver.ServiceReference` as the validator reads it (the
namespace field is renamed, `namespace` being reserved in Lean). -/
structure ServiceReference where
  name : String
  nspace : String
  port : Option Int
deriving Repr, DecidableEq

/-- `apiserver.OpenTelemetryClientConfiguration` (the fields the
validator reads). -/
structure OpenTelemetryClientConfiguration where
  service : Option ServiceReference
  url : Option String
deriving Repr, DecidableEq

/-- `validateService`: a required-field error for an empty name and for
an empty namespace. -/
def validateService (s : ServiceReference) : List String :=
  (if s.name.length = 0 then ["service name is required"] else [])
  ++ (if s.nspace.length = 0 then ["service namespace is required"] else [])

/-- A sufficient condition for Go's `net/url.Parse` to succeed, which is
how far this embedding models that library function: a letter-initial
scheme of scheme characters, a `:`, and a remainder that does not start
with `/` — the opaque (rootless) form, which `Parse` stores in
`URL.Opaque` and returns without any further validation — with no `#`
(whose fragment would be percent-decoded) and no ASCII control bytes
(which `Parse` rejects outright). Authority-form URLs (`scheme://...`)
are deliberately not certified: there `Parse` validates the host's
characters, percent-escapes and port, which this embedding does not
model. The strings this repository validates (`host:port` endpoints
such as `localhost:55680`) are of the certified opaque shape. -/
def goURLParses (u : String) : Bool :=
  match u.data with
  | [] => false
  | c :: _ =>
    c.isAlpha
    && (u.data.takeWhile (fun ch => ¬ ch = ':')).all
        (fun ch => ch.isAlpha || ch.isDigit || ch = '+' || ch = '-' || ch = '.')
    && (match u.data.dropWhile (fun ch => ¬ ch = ':') with
        | [] => false
        | _ :: rest => !(rest.headD ' ' = '/'))
    && u.data.all (fun ch => 31 < ch.toNat && ¬ ch.toNat = 127 && ¬ ch = '#')

/-- `validateURL`: an error when `url.Parse` fails (modelled through
`goURLParses`, which is conservative: it only certifies success). -/
def validateURL (u : String) : List String :=
  if goURLParses u then [] else ["Unable to parse URL"]

/-- `ValidateOpenTelemetryConfiguration`: no errors for a nil
configuration; an error when both `Service` and `URL` are set; plus the
service and URL field validations. -/
def validateOpenTelemetryConfiguration
    (config : Option OpenTelemetryClientConfiguration) : List String :=
  match config with
  | none => []
  | some c =>
    (if c.service.isSome ∧ c.url.isSome then
      ["Service and URL cannot both be set"] else [])
    ++ (match c.service with
        | some s => validateService s
        | none => [])
    ++ (match c.url with
        | some u => validateURL u
        | none => [])

/-- C9. Validation rejects a configuration with both `Service` and
`URL` set, rejects a `Service` whose name or namespace is empty, and
accepts a URL-only configuration with a parseable URL as well as a
`Service` configuration carrying both name and namespace (with or
without a port). -/
theorem validate_config_policy :
    (∀ (s : ServiceReference) (u : String),
      validateOpenTelemetryConfiguration (some ⟨some s, some u⟩) ≠ [])
    ∧ (∀ s : ServiceReference, s.name = "" ∨ s.nspace = "" →
        validateOpenTelemetryConfiguration (some ⟨some s, none⟩) ≠ [])
    ∧ (∀ u : String, goURLParses u = true →
        validateOpenTelemetryConfiguration (some ⟨none, some u⟩) = [])
    ∧ (∀ s : ServiceReference, ¬ s.name = "" → ¬ s.nspace = "" →
        validateOpenTelemetryConfiguration (some ⟨some s, none⟩) = []) := by
  refine ⟨?_, ?_, ?_, ?_⟩
  · intro s u
    simp [validateOpenTelemetryConfiguration]
  · intro s h
    rcases h with h | h <;>
      simp [validateOpenTelemetryConfiguration, validateService, h]
  · intro u h
    simp [validateOpenTelemetryConfiguration, validateURL, h]
  · intro s h1 h2
    have hlen : ∀ t : String, t.length = 0 → t = "" := by
      intro t ht
      cases t with
      | mk data =>
        cases data with
        | nil => rfl
        | cons c cs => simp [String.length] at ht
    have e1 : s.name.length ≠ 0 := fun e => h1 (hlen _ e)
    have e2 : s.nspace.length ≠ 0 := fun e => h2 (hlen _ e)
    simp [validateOpenTelemetryConfiguration, validateService, e1, e2]

/-- Witness for C9 at the repository's own default endpoint and test
values. -/
theorem validate_config_policy_witness :
    validateOpenTelemetryConfiguration
        (some ⟨some ⟨"service", "ns", none⟩, some "localhost:55680"⟩) ≠ []
    ∧ validateOpenTelemetryConfiguration
        (some ⟨some ⟨"", "ns", none⟩, none⟩) ≠ []
    ∧ validateOpenTelemetryConfiguration (some ⟨none, some "localhost:55680"⟩) = []
    ∧ validateOpenTelemetryConfiguration
        (some ⟨some ⟨"service", "ns", some 12378⟩, none⟩) = [] :=
  ⟨validate_config_policy.1 ⟨"service", "ns", none⟩ "localhost:55680",
   validate_config_policy.2.1 ⟨"", "ns", none⟩ (Or.inl rfl),
   validate_config_policy.2.2.1 "localhost:55680" (by decide),
   validate_config_policy.2.2.2 ⟨"service", "ns", some 12378⟩ (by decide) (by decide)⟩
